import Mathlib

/-!
Shallow embedding of the dual-strategy valid-input search harness in
`experiments/input_search.py` (nnsmith repository).

The external graph-evaluation collaborator (`SymbolNet`) is modelled by
oracles: forward evaluation sets the `invalid_found_last` flag as a pure
function of the candidate (`invalidFound : α → Bool`), and the
gradient-enabled entry point `grad_input_gen` either returns an optional
valid assignment or raises a `RuntimeError` with a message
(`GradEval`).  Python floats are modelled as rationals.
-/

namespace InputSearch

/-- A search outcome: the success flag (`succ_v3` / `succ_grad`) and the
attempt counter (`try_times_v3` / `try_times_grad`).  Wall-clock time is
not modelled. -/
structure Outcome where
  succ : Bool
  tries : ℕ
deriving DecidableEq, Repr

/-! ## Candidate sampler (lines 64-70) -/

/-- `np.linspace a b n` with `endpoint=True`: `n` evenly spaced values
from `a` to `b` inclusive; `[a]` when `n = 1`, `[]` when `n = 0`. -/
def linspace (a b : ℚ) (n : ℕ) : List ℚ :=
  if n = 0 then []
  else if n = 1 then [a]
  else (List.range n).map fun i : ℕ => a + (b - a) * (i : ℚ) / ((n : ℚ) - 1)

/-- `interval = 1 / n_step` (line 66 of the source). -/
def interval (nStep : ℕ) : ℚ := 1 / nStep

/-- One tensor element of a candidate: `v + torch.rand(...) * interval`
where `r` models the uniform draw from `[0, 1)` (lines 68-69). -/
def sampleElem (nStep : ℕ) (v r : ℚ) : ℚ := v + r * interval nStep

/-- `init_tensor_samples` (lines 64-70): one candidate assignment per
sweep center `v ∈ np.linspace (-1) 1 n_step`; an assignment holds one
tensor per input shape; each tensor element is `v + rand * interval`.
Shapes are flattened to element counts; `rand ci ii ei` models the
`torch.rand` stream value for candidate `ci`, input `ii`, element `ei`. -/
def initTensorSamples (nStep : ℕ) (shapes : List ℕ) (rand : ℕ → ℕ → ℕ → ℚ) :
    List (List (List ℚ)) :=
  (linspace (-1) 1 nStep).enum.map fun p =>
    shapes.enum.map fun q =>
      (List.range q.2).map fun ei => sampleElem nStep p.2 (rand p.1 q.1 ei)

/-- Modelled from the spec: the spec's `step_interval = 2 / n_samples`
(the source's `interval` is `1 / n_step`; this definition follows the
spec's words to be compared with it). -/
def step_interval_spec (n : ℕ) : ℚ := 2 / n

/-! ## Blind search, "v3" (lines 73-88) -/

/-- The v3 loop body, accumulator `tries` = `try_times_v3`: increment,
evaluate, stop as soon as `invalid_found_last` is false. -/
def blindSearchAux (invalidFound : α → Bool) : List α → ℕ → Outcome
  | [], tries => ⟨false, tries⟩
  | c :: rest, tries =>
    if invalidFound c then blindSearchAux invalidFound rest (tries + 1)
    else ⟨true, tries + 1⟩

/-- Blind search over the candidate sequence (lines 74-88). -/
def blindSearch (invalidFound : α → Bool) (cs : List α) : Outcome :=
  blindSearchAux invalidFound cs 0

/-! ## Gradient search (lines 92-113) -/

/-- Result of one call to `net.grad_input_gen`: either it returns
(`sat_inputs` is `some` valid assignment or `none`), or it raises a
`RuntimeError` carrying a message. -/
inductive GradEval (β : Type) where
  | ret (res : Option β)
  | raiseRuntime (msg : String)
deriving DecidableEq, Repr

/-- The distinguished substring tested at line 101 of the source. -/
def nonDiffSubstr : String :=
  "element 0 of tensors does not require grad and does not have a grad_fn"

/-- Boolean prefix test on character lists. -/
def isPrefixChars : List Char → List Char → Bool
  | [], _ => true
  | _ :: _, [] => false
  | a :: as, b :: bs => a == b && isPrefixChars as bs

/-- Boolean substring-containment test on character lists (Python's
`sub in s`). -/
def containsSub (sub : List Char) : List Char → Bool
  | [] => isPrefixChars sub []
  | b :: bs => isPrefixChars sub (b :: bs) || containsSub sub bs

/-- A sample `RuntimeError` message without the distinguished
substring (an unexpected evaluation error). -/
def oomMsg : String :=
  "CUDA error: out of memory"

/-- Python's `'element 0 of tensors ...' in str(e)` (line 101). -/
def isNonDiffError (msg : String) : Bool :=
  containsSub nonDiffSubstr.toList msg.toList

/-- The grad loop body (lines 95-109), accumulator `tries` =
`try_times_grad`.  A `RuntimeError` whose message contains the
distinguished substring adopts the blind-search outcome `v3` verbatim
and stops; any other raised error propagates (`Except.error`); a
returned valid assignment records success at the current count;
`none` moves to the next candidate. -/
def gradSearchAux (gradInputGen : α → GradEval β) (v3 : Outcome) :
    List α → ℕ → Except String Outcome
  | [], tries => .ok ⟨false, tries⟩
  | c :: rest, tries =>
    match gradInputGen c with
    | .raiseRuntime msg =>
      if isNonDiffError msg then .ok v3 else .error msg
    | .ret (some _) => .ok ⟨true, tries + 1⟩
    | .ret none => gradSearchAux gradInputGen v3 rest (tries + 1)

/-- Gradient search over the same candidate sequence, run after blind
search produced `v3` (lines 92-113). -/
def gradSearch (gradInputGen : α → GradEval β) (v3 : Outcome) (cs : List α) :
    Except String Outcome :=
  gradSearchAux gradInputGen v3 cs 0

/-! ## Comparison harness (lines 41-116) -/

/-- The `results` dict: one list per column (line 41-52).  Wall-clock
time columns are carried as opaque rational values. -/
structure Columns where
  modelSeed : List ℕ
  nNodes : List ℕ
  v3Time : List ℚ
  v3Try : List ℕ
  v3Succ : List Bool
  gradTime : List ℚ
  gradTry : List ℕ
  gradSucc : List Bool
deriving DecidableEq, Repr

/-- The empty `results` dict created at harness start. -/
def emptyColumns : Columns := ⟨[], [], [], [], [], [], [], []⟩

/-- Everything one loop iteration (one generated model) depends on:
graph metadata, the shared candidate sequence, and the two evaluation
oracles.  The measured wall-clock durations are opaque inputs. -/
structure ModelRun (α β : Type) where
  seed : ℕ
  nNodes : ℕ
  candidates : List α
  invalidFound : α → Bool
  gradInputGen : α → GradEval β
  v3Time : ℚ
  gradTime : ℚ

/-- The blind-search Outcome of model `i` under the harness
(lines 73-88, executed inside the loop body). -/
def modelV3 (models : ℕ → ModelRun α β) (i : ℕ) : Outcome :=
  blindSearch (models i).invalidFound (models i).candidates

/-- The gradient-search result of model `i` under the harness (lines
92-113, run after blind search per the fallback policy). -/
def modelGrad (models : ℕ → ModelRun α β) (i : ℕ) : Except String Outcome :=
  gradSearch (models i).gradInputGen (modelV3 models i) (models i).candidates

/-- The appends performed before and during the v3 phase of one loop
iteration (lines 61-62 and 86-88). -/
def appendBlindRow (cols : Columns) (mr : ModelRun α β) (v3 : Outcome) :
    Columns :=
  { cols with
    modelSeed := cols.modelSeed ++ [mr.seed]
    nNodes := cols.nNodes ++ [mr.nNodes]
    v3Time := cols.v3Time ++ [mr.v3Time]
    v3Try := cols.v3Try ++ [v3.tries]
    v3Succ := cols.v3Succ ++ [v3.succ] }

/-- The appends performed after the grad phase of one loop iteration
(lines 112-114). -/
def appendGradRow (cols : Columns) (mr : ModelRun α β) (o : Outcome) :
    Columns :=
  { cols with
    gradTime := cols.gradTime ++ [mr.gradTime]
    gradTry := cols.gradTry ++ [o.tries]
    gradSucc := cols.gradSucc ++ [o.succ] }

/-- The harness loop (lines 54-114) over models `i, i+1, ...` for `m`
iterations: append seed, node count and the blind-search columns, then
run gradient search; an uncaught error aborts the loop with the dict in
its current state (`Except.error`), otherwise the grad columns are
appended and the loop continues. -/
def runModelsAux (models : ℕ → ModelRun α β) :
    ℕ → ℕ → Columns → Except Columns Columns
  | 0, _, cols => .ok cols
  | m + 1, i, cols =>
    let cols2 := appendBlindRow cols (models i) (modelV3 models i)
    match modelGrad models i with
    | .error _ => .error cols2
    | .ok o => runModelsAux models m (i + 1) (appendGradRow cols2 (models i) o)

/-- Run the harness on `n` models starting from the empty dict. -/
def runModels (models : ℕ → ModelRun α β) (n : ℕ) : Except Columns Columns :=
  runModelsAux models n 0 emptyColumns

/-- `pd.DataFrame(results).to_csv(...)` runs only after the loop
completes (line 116): the persisted artifact exists only for a
completed run. -/
def persistedTable (models : ℕ → ModelRun α β) (n : ℕ) : Option Columns :=
  match runModels models n with
  | .ok cols => some cols
  | .error _ => none

/-- A concrete two-model harness input: model 0 completes normally,
model 1 raises an unexpected out-of-memory error during gradient
search. -/
def modelsW : ℕ → ModelRun ℕ Unit := fun j =>
  if j = 0 then
    { seed := 11, nNodes := 3, candidates := [0],
      invalidFound := fun _ => false,
      gradInputGen := fun _ => .ret (some ()),
      v3Time := 0, gradTime := 0 }
  else
    { seed := 22, nNodes := 4, candidates := [0],
      invalidFound := fun _ => false,
      gradInputGen := fun _ => .raiseRuntime oomMsg,
      v3Time := 0, gradTime := 0 }

/-! ## Helper lemmas -/

/-- If every candidate is invalid, the v3 loop exhausts the list and the
counter advances by its length. -/
theorem blindSearchAux_all_invalid (invalidFound : α → Bool) (cs : List α) :
    ∀ t : ℕ, (∀ i (hi : i < cs.length), invalidFound (cs.get ⟨i, hi⟩) = true) →
      blindSearchAux invalidFound cs t = ⟨false, t + cs.length⟩ := by
  induction cs with
  | nil => intro t _; simp [blindSearchAux]
  | cons c rest ih =>
    intro t h
    have hc : invalidFound c = true := h 0 (Nat.succ_pos _)
    have := ih (t + 1) (fun i hi => h (i + 1) (Nat.succ_lt_succ hi))
    simp [blindSearchAux, hc, this]
    omega

/-- If the first valid candidate sits at 0-based index `j`, the v3 loop
stops there with counter `t + j + 1`. -/
theorem blindSearchAux_first_valid (invalidFound : α → Bool) (cs : List α) :
    ∀ (t j : ℕ) (hj : j < cs.length),
      (∀ i (hi : i < j), invalidFound (cs.get ⟨i, hi.trans hj⟩) = true) →
      invalidFound (cs.get ⟨j, hj⟩) = false →
      blindSearchAux invalidFound cs t = ⟨true, t + j + 1⟩ := by
  induction cs with
  | nil => intro t j hj _ _; exact absurd hj (Nat.not_lt_zero _)
  | cons c rest ih =>
    intro t j hj hbefore hvalid
    cases j with
    | zero => simp [blindSearchAux, List.get] at hvalid ⊢; simp [hvalid]
    | succ k =>
      have hc : invalidFound c = true := hbefore 0 (Nat.succ_pos _)
      have hk : k < rest.length := Nat.lt_of_succ_lt_succ hj
      have := ih (t + 1) k hk
        (fun i hi => hbefore (i + 1) (Nat.succ_lt_succ hi)) hvalid
      simp [blindSearchAux, hc, this]
      omega

/-- The v3 counter stays within `[t + 1, t + cs.length]` on a non-empty
list. -/
theorem blindSearchAux_tries_bounds (invalidFound : α → Bool) (cs : List α) :
    ∀ t : ℕ, cs ≠ [] →
      t + 1 ≤ (blindSearchAux invalidFound cs t).tries ∧
      (blindSearchAux invalidFound cs t).tries ≤ t + cs.length := by
  induction cs with
  | nil => intro t h; exact absurd rfl h
  | cons c rest ih =>
    intro t _
    by_cases hc : invalidFound c = true
    · cases rest with
      | nil => simp [blindSearchAux, hc]
      | cons d rest' =>
        have := ih (t + 1) (by simp)
        simp only [blindSearchAux, hc, if_true] at this ⊢
        constructor
        · omega
        · simp only [List.length_cons] at this ⊢; omega
    · simp only [Bool.not_eq_true] at hc
      simp [blindSearchAux, hc]

/-- If every candidate makes `grad_input_gen` return `None`, the grad
loop exhausts the list and the counter advances by its length. -/
theorem gradSearchAux_all_none (gradInputGen : α → GradEval β) (v3 : Outcome)
    (cs : List α) :
    ∀ t : ℕ, (∀ c ∈ cs, gradInputGen c = .ret none) →
      gradSearchAux gradInputGen v3 cs t = .ok ⟨false, t + cs.length⟩ := by
  induction cs with
  | nil => intro t _; simp [gradSearchAux]
  | cons c rest ih =>
    intro t h
    have hc : gradInputGen c = .ret none := h c (List.mem_cons_self c rest)
    have := ih (t + 1) (fun d hd => h d (List.mem_cons_of_mem c hd))
    simp [gradSearchAux, hc, this]
    omega

/-- If the candidates before index `j` make `grad_input_gen` return
`None` and candidate `j` raises, the grad loop reacts to that raise:
fallback on the distinguished message, propagation otherwise. -/
theorem gradSearchAux_first_raise (gradInputGen : α → GradEval β) (v3 : Outcome)
    (cs : List α) :
    ∀ (t j : ℕ) (hj : j < cs.length),
      (∀ i (hi : i < j), gradInputGen (cs.get ⟨i, hi.trans hj⟩) = .ret none) →
      ∀ msg : String, gradInputGen (cs.get ⟨j, hj⟩) = .raiseRuntime msg →
      gradSearchAux gradInputGen v3 cs t =
        if isNonDiffError msg then .ok v3 else .error msg := by
  induction cs with
  | nil => intro t j hj _ _ _; exact absurd hj (Nat.not_lt_zero _)
  | cons c rest ih =>
    intro t j hj hbefore msg hraise
    cases j with
    | zero =>
      simp only [List.get] at hraise
      simp [gradSearchAux, hraise]
    | succ k =>
      have hc : gradInputGen c = .ret none := hbefore 0 (Nat.succ_pos _)
      have hk : k < rest.length := Nat.lt_of_succ_lt_succ hj
      have := ih (t + 1) k hk
        (fun i hi => hbefore (i + 1) (Nat.succ_lt_succ hi)) msg hraise
      simp [gradSearchAux, hc, this]

/-! ## Claim theorems -/

/-- If the grad loop returns an Outcome, it is either the adopted
blind-search outcome `v3` or its counter lies in
`[t + 1, t + cs.length]`. -/
theorem gradSearchAux_ok_cases (gradInputGen : α → GradEval β) (v3 : Outcome)
    (cs : List α) :
    ∀ (t : ℕ) (o : Outcome), cs ≠ [] →
      gradSearchAux gradInputGen v3 cs t = .ok o →
      o = v3 ∨ (t + 1 ≤ o.tries ∧ o.tries ≤ t + cs.length) := by
  induction cs with
  | nil => intro t o h _; exact absurd rfl h
  | cons c rest ih =>
    intro t o _ hrun
    rw [gradSearchAux] at hrun
    cases hgc : gradInputGen c with
    | raiseRuntime msg =>
      rw [hgc] at hrun
      by_cases hnd : isNonDiffError msg = true
      · simp [hnd] at hrun; exact Or.inl hrun.symm
      · simp [hnd] at hrun
    | ret res =>
      cases res with
      | some b =>
        rw [hgc] at hrun
        simp at hrun
        right
        rw [← hrun]
        simp
      | none =>
        rw [hgc] at hrun
        cases rest with
        | nil =>
          simp [gradSearchAux] at hrun
          right
          rw [← hrun]
          simp
        | cons d rest' =>
          rcases ih (t + 1) o (by simp) hrun with h | h
          · exact Or.inl h
          · right
            simp only [List.length_cons] at h ⊢
            omega

/-- C4: for every graph and every non-empty candidate sequence, Blind
Search's attempt count equals the 1-based position of the first
candidate whose forward evaluation leaves the invalid flag false, with
success true (short-circuit); if no candidate is valid, success is
false and the attempt count equals the sequence length. -/
theorem blindSearch_attempt_count_spec (invalidFound : α → Bool) (cs : List α)
    (hne : cs ≠ []) :
    (∀ (j : ℕ) (hj : j < cs.length),
      (∀ i (hi : i < j), invalidFound (cs.get ⟨i, hi.trans hj⟩) = true) →
      invalidFound (cs.get ⟨j, hj⟩) = false →
      blindSearch invalidFound cs = ⟨true, j + 1⟩) ∧
    ((∀ i (hi : i < cs.length), invalidFound (cs.get ⟨i, hi⟩) = true) →
      blindSearch invalidFound cs = ⟨false, cs.length⟩) := by
  refine ⟨fun j hj hbefore hvalid => ?_, fun hall => ?_⟩
  · have := blindSearchAux_first_valid invalidFound cs 0 j hj hbefore hvalid
    simpa [blindSearch] using this
  · have := blindSearchAux_all_invalid invalidFound cs 0 hall
    simpa [blindSearch] using this

/-- Witness for C4: on `[0, 1, 2, 3]` with candidate `2` the first
valid one, blind search reports success at attempt 3. -/
theorem blindSearch_attempt_count_spec_witness :
    blindSearch (fun c => c != 2) ([0, 1, 2, 3] : List ℕ) = ⟨true, 3⟩ :=
  (blindSearch_attempt_count_spec (fun c => c != 2) [0, 1, 2, 3] (by decide)).1
    2 (by decide) (by decide) (by decide)

/-- C8: Blind Search is deterministic given its inputs — two runs on
the same graph state (validity oracle) and candidate sequence yield the
same success flag and attempt count. -/
theorem blindSearch_deterministic (invalidFound : α → Bool) (cs : List α)
    (r₁ r₂ : Outcome) (h₁ : r₁ = blindSearch invalidFound cs)
    (h₂ : r₂ = blindSearch invalidFound cs) :
    r₁.succ = r₂.succ ∧ r₁.tries = r₂.tries := by
  subst h₁; subst h₂; exact ⟨rfl, rfl⟩

/-- Witness for C8 at a concrete graph and candidate list. -/
theorem blindSearch_deterministic_witness :
    (blindSearch (fun c => c != 2) ([0, 1, 2] : List ℕ)).succ =
      (blindSearch (fun c => c != 2) ([0, 1, 2] : List ℕ)).succ ∧
    (blindSearch (fun c => c != 2) ([0, 1, 2] : List ℕ)).tries =
      (blindSearch (fun c => c != 2) ([0, 1, 2] : List ℕ)).tries :=
  blindSearch_deterministic (fun c => c != 2) [0, 1, 2] _ _ rfl rfl

/-- C7: if `grad_input_gen` returns `None` on every candidate (no
success, no fallback), Gradient Search records failure with attempt
count equal to the sequence length. -/
theorem gradSearch_exhaustion (gradInputGen : α → GradEval β) (v3 : Outcome)
    (cs : List α) (h : ∀ c ∈ cs, gradInputGen c = .ret none) :
    gradSearch gradInputGen v3 cs = .ok ⟨false, cs.length⟩ := by
  have := gradSearchAux_all_none gradInputGen v3 cs 0 h
  simpa [gradSearch] using this

/-- Witness for C7: five candidates, none ever valid — outcome is
`(success = false, attempts = 5)`. -/
theorem gradSearch_exhaustion_witness :
    gradSearch (β := Unit) (fun _ => .ret none) ⟨false, 5⟩
      ([0, 1, 2, 3, 4] : List ℕ) = .ok ⟨false, 5⟩ :=
  gradSearch_exhaustion (fun _ => .ret none) ⟨false, 5⟩ [0, 1, 2, 3, 4]
    (by decide)

/-- C2: if Gradient Search hits the non-differentiability condition on
any attempt (a raised `RuntimeError` whose message contains the
distinguished substring, all earlier candidates having returned
`None`), its reported Outcome is exactly Blind Search's already
computed Outcome for the same graph and candidate sequence, and the
loop stops there. -/
theorem gradSearch_fallback (invalidFound : α → Bool)
    (gradInputGen : α → GradEval β) (cs : List α) (j : ℕ) (hj : j < cs.length)
    (hbefore : ∀ i (hi : i < j), gradInputGen (cs.get ⟨i, hi.trans hj⟩) = .ret none)
    (msg : String) (hraise : gradInputGen (cs.get ⟨j, hj⟩) = .raiseRuntime msg)
    (hnd : isNonDiffError msg = true) :
    gradSearch gradInputGen (blindSearch invalidFound cs) cs =
      .ok (blindSearch invalidFound cs) := by
  have := gradSearchAux_first_raise gradInputGen (blindSearch invalidFound cs)
    cs 0 j hj hbefore msg hraise
  simp [gradSearch, this, hnd]

/-- Witness for C2: the non-differentiability message raised on attempt
2 of 2; blind search failed in 2 attempts, and the grad outcome adopts
`(false, 2)` verbatim. -/
theorem gradSearch_fallback_witness :
    gradSearch (β := Unit)
      (fun c => if c = 0 then .ret none else .raiseRuntime nonDiffSubstr)
      (blindSearch (fun _ => true) ([0, 1] : List ℕ)) [0, 1] =
      .ok (blindSearch (fun _ => true) ([0, 1] : List ℕ)) :=
  gradSearch_fallback (fun _ => true)
    (fun c => if c = 0 then .ret none else .raiseRuntime nonDiffSubstr)
    [0, 1] 1 (by decide) (by decide) nonDiffSubstr (by decide) (by decide)

/-- C6: a failure raised by the gradient-enabled entry point whose
message does not contain the distinguished substring is not caught: the
search result is the propagated error, not an Outcome and not the
fallback. -/
theorem gradSearch_propagates_other_errors (gradInputGen : α → GradEval β)
    (v3 : Outcome) (cs : List α) (j : ℕ) (hj : j < cs.length)
    (hbefore : ∀ i (hi : i < j), gradInputGen (cs.get ⟨i, hi.trans hj⟩) = .ret none)
    (msg : String) (hraise : gradInputGen (cs.get ⟨j, hj⟩) = .raiseRuntime msg)
    (hnd : isNonDiffError msg = false) :
    gradSearch gradInputGen v3 cs = .error msg := by
  have := gradSearchAux_first_raise gradInputGen v3 cs 0 j hj hbefore msg hraise
  simp [gradSearch, this, hnd]

/-- If blind search succeeds with counter `k` starting from accumulator
`t`, and gradient evaluation on the listed candidates never raises a
non-distinguished error and returns a valid assignment on every
forward-valid candidate, then the grad loop started at the same
accumulator reports success with counter at most `k`. -/
theorem gradSearchAux_dominates (invalidFound : α → Bool)
    (gradInputGen : α → GradEval β) (k : ℕ) :
    ∀ (cs : List α) (t : ℕ),
      (∀ c ∈ cs, ∀ msg, gradInputGen c = .raiseRuntime msg →
        isNonDiffError msg = true) →
      (∀ c ∈ cs, invalidFound c = false → ∃ b, gradInputGen c = .ret (some b)) →
      blindSearchAux invalidFound cs t = ⟨true, k⟩ →
      ∃ o : Outcome, gradSearchAux gradInputGen ⟨true, k⟩ cs t = .ok o ∧
        o.succ = true ∧ o.tries ≤ k := by
  intro cs
  induction cs with
  | nil =>
    intro t _ _ hblind
    simp [blindSearchAux] at hblind
  | cons c rest ih =>
    intro t hnoerr hvalid hblind
    by_cases hc : invalidFound c = true
    · rw [blindSearchAux, if_pos hc] at hblind
      have hrest : rest ≠ [] := by
        rintro rfl
        simp [blindSearchAux] at hblind
      have hk : t + 2 ≤ k := by
        have hb := blindSearchAux_tries_bounds invalidFound rest (t + 1) hrest
        rw [hblind] at hb
        exact hb.1
      cases hgc : gradInputGen c with
      | raiseRuntime msg =>
        have hnd := hnoerr c (List.mem_cons_self c rest) msg hgc
        refine ⟨⟨true, k⟩, ?_, rfl, le_refl k⟩
        rw [gradSearchAux, hgc]
        simp [hnd]
      | ret res =>
        cases res with
        | some b =>
          refine ⟨⟨true, t + 1⟩, ?_, rfl, by show t + 1 ≤ k; omega⟩
          rw [gradSearchAux, hgc]
        | none =>
          rcases ih (t + 1)
            (fun d hd => hnoerr d (List.mem_cons_of_mem c hd))
            (fun d hd => hvalid d (List.mem_cons_of_mem c hd)) hblind
            with ⟨o, ho, hsucc, hle⟩
          refine ⟨o, ?_, hsucc, hle⟩
          rw [gradSearchAux, hgc]
          exact ho
    · simp only [Bool.not_eq_true] at hc
      rw [blindSearchAux, hc] at hblind
      simp at hblind
      rcases hvalid c (List.mem_cons_self c rest) hc with ⟨b, hgc⟩
      refine ⟨⟨true, t + 1⟩, ?_, rfl, by show t + 1 ≤ k; omega⟩
      rw [gradSearchAux, hgc]

/-- Counterexample to C3 as stated: blind search succeeds on the first
candidate (attempt 1), gradients are usable (no raise) and both
strategies succeed, yet gradient refinement gives up (`None`) on that
candidate and only succeeds on the second, so its attempt count 2
exceeds blind search's 1. -/
theorem gradSearch_can_exceed_blind :
    blindSearch (fun _ => false) ([10, 20] : List ℕ) = ⟨true, 1⟩ ∧
    gradSearch (β := Unit) (fun c => if c = 10 then .ret none else .ret (some ()))
      (blindSearch (fun _ => false) ([10, 20] : List ℕ)) [10, 20] =
      .ok ⟨true, 2⟩ ∧
    ¬(2 ≤ 1) := ⟨rfl, rfl, by omega⟩

/-- C3 amended: provided gradient evaluation never raises a
non-distinguished error on the sequence and returns a valid assignment
on every candidate whose forward evaluation is valid (the source's
comment: "If v3 can succeed, grad can succeed too as their initial
input are the same"), then whenever Blind Search succeeds at attempt
`k`, Gradient Search's fallback-adjusted outcome succeeds with attempt
count at most `k` — in particular the fallback branch adopts exactly
`k`.  Without that proviso the dominance can fail
(`gradSearch_can_exceed_blind`). -/
theorem gradSearch_dominates_blind (invalidFound : α → Bool)
    (gradInputGen : α → GradEval β) (cs : List α) (k : ℕ)
    (hnoerr : ∀ c ∈ cs, ∀ msg, gradInputGen c = .raiseRuntime msg →
      isNonDiffError msg = true)
    (hvalid : ∀ c ∈ cs, invalidFound c = false →
      ∃ b, gradInputGen c = .ret (some b))
    (hblind : blindSearch invalidFound cs = ⟨true, k⟩) :
    ∃ o : Outcome, gradSearch gradInputGen (blindSearch invalidFound cs) cs =
      .ok o ∧ o.succ = true ∧ o.tries ≤ k := by
  rw [hblind]
  rw [blindSearch] at hblind
  exact gradSearchAux_dominates invalidFound gradInputGen k cs 0 hnoerr
    hvalid hblind

/-- Witness for C3 amended: blind search succeeds at attempt 2 and
gradient search at attempt 2 as well (`2 ≤ 2`). -/
theorem gradSearch_dominates_blind_witness :
    ∃ o : Outcome,
      gradSearch (β := Unit) (fun c => if c = 0 then .ret (some ()) else .ret none)
        (blindSearch (fun c => c != 0) ([5, 0] : List ℕ)) [5, 0] = .ok o ∧
      o.succ = true ∧ o.tries ≤ 2 :=
  gradSearch_dominates_blind (fun c => c != 0)
    (fun c => if c = 0 then .ret (some ()) else .ret none) ([5, 0] : List ℕ) 2
    (by intro c hc msg h; fin_cases hc <;> simp at h)
    (by
      intro c hc hinv
      fin_cases hc
      · simp at hinv
      · exact ⟨(), rfl⟩)
    rfl

/-- C10: on a non-empty candidate sequence of length `n`, the attempt
count recorded in Blind Search's Outcome lies in `[1, n]`, and so does
the attempt count of any Outcome Gradient Search records (the fallback
adopts Blind Search's counter, which obeys the same bound). -/
theorem search_attempts_in_range (invalidFound : α → Bool)
    (gradInputGen : α → GradEval β) (cs : List α) (hne : cs ≠ []) :
    (1 ≤ (blindSearch invalidFound cs).tries ∧
      (blindSearch invalidFound cs).tries ≤ cs.length) ∧
    ∀ o : Outcome,
      gradSearch gradInputGen (blindSearch invalidFound cs) cs = .ok o →
      1 ≤ o.tries ∧ o.tries ≤ cs.length := by
  have hb := blindSearchAux_tries_bounds invalidFound cs 0 hne
  simp only [Nat.zero_add] at hb
  refine ⟨hb, fun o ho => ?_⟩
  rcases gradSearchAux_ok_cases gradInputGen (blindSearch invalidFound cs) cs
    0 o hne ho with h | h
  · rw [h]; exact hb
  · simpa using h

/-- Witness for C10 on a two-candidate sequence: blind search uses 2
attempts, gradient search records an outcome with 1 attempt; both lie
in `[1, 2]`. -/
theorem search_attempts_in_range_witness :
    (1 ≤ (blindSearch (fun c => c != 1) ([0, 1] : List ℕ)).tries ∧
      (blindSearch (fun c => c != 1) ([0, 1] : List ℕ)).tries ≤
        ([0, 1] : List ℕ).length) ∧
    (1 ≤ (⟨true, 1⟩ : Outcome).tries ∧
      (⟨true, 1⟩ : Outcome).tries ≤ ([0, 1] : List ℕ).length) := by
  have h := search_attempts_in_range (β := Unit) (fun c => c != 1)
    (fun _ => .ret (some ())) ([0, 1] : List ℕ) (by decide)
  exact ⟨h.1, h.2 ⟨true, 1⟩ rfl⟩

/-- Counterexample to C1 as stated: the source scales the noise by
`interval = 1 / n_step` (line 66), not by the claimed
`step_interval = 2 / n_samples`; at `n_samples = 10`, center `0` and a
uniform draw of `1/2`, the produced element differs from the claimed
one. -/
theorem sampleElem_ne_spec_noise :
    interval 10 ≠ step_interval_spec 10 ∧
    sampleElem 10 0 (1 / 2) ≠ 0 + (1 / 2) * step_interval_spec 10 := by
  constructor
  · norm_num [interval, step_interval_spec]
  · norm_num [sampleElem, interval, step_interval_spec]

/-- C1 amended: the noise added to the sweep center `v` is the uniform
draw scaled by `interval = 1 / n_samples`, so every tensor element of
the assignment built for center `v` lies in `[v, v + 1/n_samples)`. -/
theorem initTensorSamples_elem_range (n : ℕ) (hn : 1 ≤ n) (shapes : List ℕ)
    (rand : ℕ → ℕ → ℕ → ℚ)
    (hrand : ∀ ci ii ei, 0 ≤ rand ci ii ei ∧ rand ci ii ei < 1)
    (ci : ℕ) (v : ℚ) (hv : (linspace (-1) 1 n)[ci]? = some v)
    (A : List (List ℚ)) (hA : (initTensorSamples n shapes rand)[ci]? = some A)
    (tensor : List ℚ) (ht : tensor ∈ A) (x : ℚ) (hx : x ∈ tensor) :
    v ≤ x ∧ x < v + interval n := by
  rw [initTensorSamples, List.getElem?_map, List.getElem?_enum, hv] at hA
  simp only [Option.map_some'] at hA
  rcases Option.some.inj hA with rfl
  rcases List.mem_map.mp ht with ⟨q, _, rfl⟩
  rcases List.mem_map.mp hx with ⟨ei, _, rfl⟩
  rcases hrand ci q.1 ei with ⟨hr0, hr1⟩
  have hnpos : (0 : ℚ) < (n : ℚ) := by exact_mod_cast hn
  have hipos : (0 : ℚ) < interval n := by
    rw [interval]; positivity
  constructor
  · have : 0 ≤ rand ci q.1 ei * interval n :=
      mul_nonneg hr0 (le_of_lt hipos)
    rw [sampleElem]; linarith
  · have : rand ci q.1 ei * interval n < 1 * interval n :=
      mul_lt_mul_of_pos_right hr1 hipos
    rw [sampleElem]; linarith

/-- Witness for C1 amended: `n_samples = 2`, one scalar input, uniform
draw `1/2`: the element for center `-1` is `-3/4 ∈ [-1, -1 + 1/2)`. -/
theorem initTensorSamples_elem_range_witness :
    (-1 : ℚ) ≤ -3/4 ∧ (-3/4 : ℚ) < -1 + interval 2 := by
  have hlin : linspace (-1) 1 2 = [-1, 1] := by
    norm_num [linspace, List.range_succ]
  have hsamp : initTensorSamples 2 [1] (fun _ _ _ => 1/2) =
      [[[(-3/4 : ℚ)]], [[(5/4 : ℚ)]]] := by
    norm_num [initTensorSamples, hlin, sampleElem, interval, List.enum,
      List.enumFrom, List.range_succ]
  exact initTensorSamples_elem_range 2 (by norm_num) [1] (fun _ _ _ => 1/2)
    (fun _ _ _ => by norm_num) 0 (-1) (by rw [hlin]; rfl)
    [[(-3/4 : ℚ)]] (by rw [hsamp]; rfl) [(-3/4 : ℚ)] (by simp) (-3/4) (by simp)

/-- `linspace` always yields `n` values. -/
theorem linspace_length (a b : ℚ) (n : ℕ) : (linspace a b n).length = n := by
  rcases n with _ | _ | m <;> simp [linspace]

/-- `linspace (-1) 1` is strictly ascending. -/
theorem linspace_neg_one_one_sorted (n : ℕ) :
    (linspace (-1) 1 n).Sorted (· < ·) := by
  rcases n with _ | _ | m
  · rw [linspace]; simp
  · rw [linspace]; simp
  · rw [linspace, if_neg (by omega), if_neg (by omega)]
    refine List.Pairwise.map _ ?_ (List.pairwise_lt_range (m + 2))
    intro i j hij
    have hm : (0:ℚ) ≤ (m : ℚ) := Nat.cast_nonneg m
    have hc : (0:ℚ) < ((m + 2 : ℕ) : ℚ) - 1 := by push_cast; linarith
    apply add_lt_add_left
    apply div_lt_div_of_pos_right _ hc
    have hij' : (i : ℚ) < (j : ℚ) := by exact_mod_cast hij
    nlinarith

/-- Counterexample to C5 as stated: at `n_samples = 1`,
`np.linspace (-1) 1 1` sweeps the single center `-1`, so the endpoint
`1` is not among the centers even though `n_samples ≥ 1`. -/
theorem linspace_one_sample_missing_endpoint :
    (1 : ℚ) ∉ linspace (-1) 1 1 ∧ (linspace (-1) 1 1).length = 1 := by
  exact ⟨by decide, rfl⟩

/-- C5 amended: for every `n_samples ≥ 1` the sampler builds exactly
`n_samples` assignments, one per sweep center; the centers are evenly
spaced in ascending order — any two consecutive centers differ by the
constant step `2 / (n_samples - 1)` — starting at `-1`, and both
endpoints `-1` and `1` are among the centers whenever `n_samples ≥ 2`
(at `n_samples = 1` the only center is `-1`, so the endpoint `1` is
missing). -/
theorem initTensorSamples_centers_spec (n : ℕ) (hn : 1 ≤ n)
    (shapes : List ℕ) (rand : ℕ → ℕ → ℕ → ℚ) :
    (initTensorSamples n shapes rand).length = n ∧
    (linspace (-1) 1 n).Sorted (· < ·) ∧
    (∀ i, i + 1 < n → ∀ x y : ℚ, (linspace (-1) 1 n)[i]? = some x →
      (linspace (-1) 1 n)[i + 1]? = some y → y - x = 2 / ((n : ℚ) - 1)) ∧
    (linspace (-1) 1 n)[0]? = some (-1 : ℚ) ∧
    (2 ≤ n → (-1 : ℚ) ∈ linspace (-1) 1 n ∧ (1 : ℚ) ∈ linspace (-1) 1 n) := by
  refine ⟨?_, linspace_neg_one_one_sorted n, ?_, ?_, fun h2 => ⟨?_, ?_⟩⟩
  · rw [initTensorSamples]
    simp [List.enum_length, linspace_length]
  · intro i hi x y hx hy
    rcases n with _ | _ | m
    · omega
    · omega
    · rw [linspace, if_neg (by omega), if_neg (by omega)] at hx hy
      rw [List.getElem?_map, List.getElem?_range (by omega)] at hx
      rw [List.getElem?_map, List.getElem?_range (by omega)] at hy
      simp only [Option.map_some'] at hx hy
      rcases Option.some.inj hx with rfl
      rcases Option.some.inj hy with rfl
      have hne : ((m : ℚ) + 1 + 1 - 1) ≠ 0 := by
        have : (0:ℚ) ≤ (m : ℚ) := Nat.cast_nonneg m
        intro h; linarith
      push_cast
      field_simp
      ring
  · rcases n with _ | _ | m
    · omega
    · norm_num [linspace]
    · rw [linspace, if_neg (by omega), if_neg (by omega)]
      rw [List.getElem?_map, List.getElem?_range (by omega)]
      norm_num
  · rcases n with _ | _ | m
    · omega
    · omega
    · rw [linspace, if_neg (by omega), if_neg (by omega)]
      exact List.mem_map.mpr ⟨0, List.mem_range.mpr (by omega), by norm_num⟩
  · rcases n with _ | _ | m
    · omega
    · omega
    · rw [linspace, if_neg (by omega), if_neg (by omega)]
      refine List.mem_map.mpr ⟨m + 1, List.mem_range.mpr (by omega), ?_⟩
      push_cast
      have h : ((m : ℚ) + 1 + 1 - 1) = (m : ℚ) + 1 := by ring
      rw [h, mul_div_assoc, div_self (by positivity)]
      norm_num

/-- Witness for C5 amended at `n_samples = 4` (step `2/3`). -/
theorem initTensorSamples_centers_spec_witness :
    (initTensorSamples 4 [1] (fun _ _ _ => 0)).length = 4 ∧
    (linspace (-1) 1 4).Sorted (· < ·) ∧
    (∀ i, i + 1 < 4 → ∀ x y : ℚ, (linspace (-1) 1 4)[i]? = some x →
      (linspace (-1) 1 4)[i + 1]? = some y → y - x = 2 / ((4 : ℚ) - 1)) ∧
    (linspace (-1) 1 4)[0]? = some (-1 : ℚ) ∧
    (2 ≤ 4 → (-1 : ℚ) ∈ linspace (-1) 1 4 ∧ (1 : ℚ) ∈ linspace (-1) 1 4) :=
  initTensorSamples_centers_spec 4 (by norm_num) [1] (fun _ _ _ => 0)

/-- Witness for C6: an out-of-memory `RuntimeError` on the first
candidate propagates out of the search. -/
theorem gradSearch_propagates_other_errors_witness :
    gradSearch (β := Unit)
      (fun _ => .raiseRuntime oomMsg)
      ⟨false, 0⟩ ([0, 1] : List ℕ) = .error oomMsg :=
  gradSearch_propagates_other_errors (β := Unit)
    (fun _ => .raiseRuntime oomMsg) ⟨false, 0⟩
    ([0, 1] : List ℕ) 0 (by decide)
    (fun i hi => absurd hi (Nat.not_lt_zero i))
    oomMsg (by decide) (by decide)

/-- If gradient search completes on every model before `i` and raises
an uncaught error on model `i`, the harness loop started at model `s`
aborts at model `i`: the grad columns hold exactly the earlier models'
outcomes, while the metadata and blind-search columns already hold
model `i`'s entries. -/
theorem runModelsAux_abort (models : ℕ → ModelRun α β) (outs : ℕ → Outcome)
    (i : ℕ) (msg : String)
    (hok : ∀ j, j < i → modelGrad models j = .ok (outs j))
    (hbad : modelGrad models i = .error msg) :
    ∀ (m s : ℕ) (cols : Columns), s ≤ i → i < s + m →
      runModelsAux models m s cols = .error
        { modelSeed := cols.modelSeed ++
            ((List.range' s (i + 1 - s)).map fun j => (models j).seed)
          nNodes := cols.nNodes ++
            ((List.range' s (i + 1 - s)).map fun j => (models j).nNodes)
          v3Time := cols.v3Time ++
            ((List.range' s (i + 1 - s)).map fun j => (models j).v3Time)
          v3Try := cols.v3Try ++
            ((List.range' s (i + 1 - s)).map fun j => (modelV3 models j).tries)
          v3Succ := cols.v3Succ ++
            ((List.range' s (i + 1 - s)).map fun j => (modelV3 models j).succ)
          gradTime := cols.gradTime ++
            ((List.range' s (i - s)).map fun j => (models j).gradTime)
          gradTry := cols.gradTry ++
            ((List.range' s (i - s)).map fun j => (outs j).tries)
          gradSucc := cols.gradSucc ++
            ((List.range' s (i - s)).map fun j => (outs j).succ) } := by
  intro m
  induction m with
  | zero => intro s cols hs him; omega
  | succ m ih =>
    intro s cols hs him
    obtain ⟨c1, c2, c3, c4, c5, c6, c7, c8⟩ := cols
    rcases Nat.lt_or_ge s i with hlt | hge
    · have hgs := hok s hlt
      have hk2 : i + 1 - s = (i - (s + 1)) + 2 := by omega
      have hk1 : i - s = (i - (s + 1)) + 1 := by omega
      have hk1' : i + 1 - (s + 1) = (i - (s + 1)) + 1 := by omega
      rw [runModelsAux, hgs]
      dsimp only
      rw [ih (s + 1) _ (by omega) (by omega)]
      simp only [appendBlindRow, appendGradRow]
      simp only [hk2, hk1, hk1', List.range'_succ, List.map_cons,
        List.append_assoc, List.singleton_append]
    · have hsi : s = i := le_antisymm hs hge
      subst hsi
      have h1 : s + 1 - s = 1 := by omega
      have h0 : s - s = 0 := by omega
      rw [runModelsAux, hbad]
      dsimp only
      rw [h1, h0]
      simp [appendBlindRow, List.range'_one]

/-- C9: if gradient search raises an uncaught error on model `i` (the
first model to fail) of an `n`-model run, the harness aborts: the grad
columns contain exactly the earlier models' outcomes — so no complete
row exists for model `i` — the earlier models' rows are unchanged, and
nothing is persisted (`to_csv` runs only after a completed run). -/
theorem harness_abort_preserves_rows (models : ℕ → ModelRun α β) (n i : ℕ)
    (outs : ℕ → Outcome) (msg : String)
    (hok : ∀ j, j < i → modelGrad models j = .ok (outs j))
    (hbad : modelGrad models i = .error msg)
    (hin : i < n) :
    runModels models n = .error
      { modelSeed := (List.range (i + 1)).map fun j => (models j).seed
        nNodes := (List.range (i + 1)).map fun j => (models j).nNodes
        v3Time := (List.range (i + 1)).map fun j => (models j).v3Time
        v3Try := (List.range (i + 1)).map fun j => (modelV3 models j).tries
        v3Succ := (List.range (i + 1)).map fun j => (modelV3 models j).succ
        gradTime := (List.range i).map fun j => (models j).gradTime
        gradTry := (List.range i).map fun j => (outs j).tries
        gradSucc := (List.range i).map fun j => (outs j).succ } ∧
    persistedTable models n = none := by
  have h := runModelsAux_abort models outs i msg hok hbad n 0 emptyColumns
    (Nat.zero_le i) (by omega)
  have hrm : runModels models n = .error
      { modelSeed := (List.range (i + 1)).map fun j => (models j).seed
        nNodes := (List.range (i + 1)).map fun j => (models j).nNodes
        v3Time := (List.range (i + 1)).map fun j => (models j).v3Time
        v3Try := (List.range (i + 1)).map fun j => (modelV3 models j).tries
        v3Succ := (List.range (i + 1)).map fun j => (modelV3 models j).succ
        gradTime := (List.range i).map fun j => (models j).gradTime
        gradTry := (List.range i).map fun j => (outs j).tries
        gradSucc := (List.range i).map fun j => (outs j).succ } := by
    rw [runModels, h]
    simp [emptyColumns, List.range_eq_range']
  refine ⟨hrm, ?_⟩
  rw [persistedTable, hrm]

/-- Witness for C9: model 0 completes, model 1 raises an out-of-memory
error; the run aborts with only model 0's complete row and nothing is
persisted. -/
theorem harness_abort_preserves_rows_witness :
    runModels modelsW 2 = .error
      { modelSeed := (List.range 2).map fun j => (modelsW j).seed
        nNodes := (List.range 2).map fun j => (modelsW j).nNodes
        v3Time := (List.range 2).map fun j => (modelsW j).v3Time
        v3Try := (List.range 2).map fun j => (modelV3 modelsW j).tries
        v3Succ := (List.range 2).map fun j => (modelV3 modelsW j).succ
        gradTime := (List.range 1).map fun j => (modelsW j).gradTime
        gradTry := (List.range 1).map fun _ => ((⟨true, 1⟩ : Outcome)).tries
        gradSucc := (List.range 1).map fun _ => ((⟨true, 1⟩ : Outcome)).succ } ∧
    persistedTable modelsW 2 = none :=
  harness_abort_preserves_rows modelsW 2 1 (fun _ => ⟨true, 1⟩) oomMsg
    (fun j hj => by interval_cases j; rfl)
    rfl (by omega)

end InputSearch
